import Mathlib

/-!
Verification development for the `json_to_relation` flattening core
(`generic_json_parser.py`) and the MongoDB default-switching wrapper
(`mongodb.py`).

The Python source is shallowly embedded: the event-processing loop of
`GenericJSONParser.processOneJSONObject` becomes a fold over a list of
parser events, in-place row mutation becomes explicit list passing, and
a Python `raise` becomes an `Except.error` that also carries the state
the caller would observe at the moment of the raise.
-/

/-- Modelled from the spec: the relational column types (module
`col_data_type.py` is not among the given sources; §3 of the spec lists
the enum as "Text, SmallInt, Double, ...", and the engine uses exactly
these three defaults). -/
inductive ColDataType
  | TEXT
  | SMALLINT
  | DOUBLE
deriving DecidableEq, Repr

/-- A Python runtime value as it can appear as an ijson event payload or
as a cell of the output row: `None`, a bool, a number (int or Decimal,
modelled as a rational), or a string. -/
inductive PyVal
  | none
  | bool (b : Bool)
  | num (q : Rat)
  | str (s : String)
deriving DecidableEq, Repr

/-- Python truthiness, used by the source in `if value:` on a boolean
event's payload. -/
def PyVal.truthy : PyVal → Bool
  | .none => false
  | .bool b => b
  | .num q => q != 0
  | .str s => s != ""

/-- One ijson event triple `(nestedLabel, event, value)` as consumed by
the `for nestedLabel, event, value in parser:` loop. The event kind is a
string, exactly as in the source, which branches on string equality. -/
structure RawEvent where
  label : String
  kind : String
  value : PyVal
deriving DecidableEq, Repr

/-- Entry of `JSONToRelation.cols`: the column's 0-based position and its
relational type (spec §3, ColumnSpec). -/
structure ColumnSpec where
  colPos : Nat
  colType : ColDataType
deriving DecidableEq, Repr

/-- Modelled from the spec: the `JSONToRelation` collaborator (the class
itself is not among the given sources; only `generic_json_parser.py`
calls into it). Per spec §4.2 it owns `cols` (name → position/type,
positions allocated in insertion order), a read-only caller-supplied
`schemaHints` mapping, and the pure, stable identifier sanitizer
`ensureLegalIdentifierChars`. -/
structure Converter where
  ensureLegalIdentifierChars : String → String
  schemaHints : String → Option ColDataType
  cols : List (String × ColumnSpec)

/-- Dictionary access on the column catalog: the first entry whose key
equals the requested name (Python `dict` lookup on `self.cols`). -/
def lookupCol : List (String × ColumnSpec) → String → Option ColumnSpec
  | [], _ => Option.none
  | (k, sp) :: rest, name => if name = k then some sp else lookupCol rest name

/-- Modelled from the spec (§4.2): `ensure_column(name, type)` is
idempotent; a new name is appended at the next insertion-ordered
position, an existing name is left unchanged regardless of the type
argument. -/
def Converter.ensureColExistence (conv : Converter) (name : String) (t : ColDataType) :
    Converter :=
  match lookupCol conv.cols name with
  | some _ => conv
  | Option.none => { conv with cols := conv.cols ++ [(name, ⟨conv.cols.length, t⟩)] }

/-- Character-level test for `GenericJSONParser.REMOVE_ITEM_FROM_STRING_PATTERN`,
the regex `(item)\.([^.]*$)`: the pattern matches at character index `i`
iff the five characters `item.` occur at `i` and the remainder of the
string contains no further dot (so group 2 is the final path segment). -/
def itemMatchAt (cs : List Char) (i : Nat) : Bool :=
  ((cs.drop i).take 5 == ['i', 't', 'e', 'm', '.']) && !((cs.drop (i + 5)).contains '.')

/-- `GenericJSONParser.removeItemPartOfString` (source lines 198-219):
`re.search` finds the leftmost match of `(item)\.([^.]*$)` in `label`;
if none, the label is returned unchanged, otherwise the result is
`label[:match.start(1)] + match.group(2)`, i.e. everything before the
matched `item.` followed by the final dot-free segment. -/
def removeItemPartOfString (label : String) : String :=
  match (List.range label.data.length).find? (itemMatchAt label.data) with
  | Option.none => label
  | some i => ⟨label.data.take i ++ label.data.drop (i + 5)⟩

/-- The gap filler the source writes into intervening row positions:
the Python string literal `'null'` (source line 182). -/
def gapFill : PyVal := PyVal.str "null"

/-- `GenericJSONParser.setValInRow` (source lines 147-185). The source
looks up `colName` in `self.jsonToRelationConverter.cols`; a missing key
would raise `KeyError`, modelled as `Option.none`. Otherwise:
if `len(theRow) == 0 or len(theRow) == targetPos` the value is appended;
if `len(theRow) > targetPos` the cell is overwritten in place; otherwise
the row is extended with `['null']*(targetPos - len(theRow))` followed by
the value. -/
def setValInRow (conv : Converter) (theRow : List PyVal) (colName : String)
    (value : PyVal) : Option (List PyVal) :=
  match lookupCol conv.cols colName with
  | Option.none => Option.none
  | some colSpec =>
    let targetPos := colSpec.colPos
    if theRow.length = 0 ∨ theRow.length = targetPos then
      some (theRow ++ [value])
    else if theRow.length > targetPos then
      some (theRow.set targetPos value)
    else
      some (theRow ++ List.replicate (targetPos - theRow.length) gapFill ++ [value])

/-- The array-suffix rewrite of source lines 80-88: when the array-index
stack is non-empty the label becomes
`removeItemPartOfString(label) + '_' + str(stack.top())`. The stack is a
LIFO of `Int` counters with its top at the head. -/
def labelAfterArray (stack : List Int) (label : String) : String :=
  match stack with
  | [] => label
  | top :: _ => removeItemPartOfString label ++ "_" ++ toString top

/-- The final column name used for schema and row operations: the
array-suffixed label passed through `ensureLegalIdentifierChars`
(source lines 86-92). -/
def resolvedName (conv : Converter) (stack : List Int) (label : String) : String :=
  conv.ensureLegalIdentifierChars (labelAfterArray stack label)

/-- The exceptions the processing loop can raise: `ValueError("Stack
empty.")` from `Stack.pop` on an empty stack, `KeyError` from the
`cols[colName]` lookup in `setValInRow`, and the final
`ValueError("Unknown JSON value type at ...")` for an unrecognized event
kind (which reports the rewritten label, the kind and the value). -/
inductive ProcError
  | stackEmpty
  | keyError (name : String)
  | unknownEvent (label : String) (kind : String) (value : PyVal)
deriving DecidableEq, Repr

/-- One iteration of the `for nestedLabel, event, value in parser:` loop
(source lines 66-144), as a function from the pre-iteration state
(converter, array-index stack, row) to the post-iteration state or the
raised error. Branch order follows the source exactly:
`start_map` (conditionally incrementing the stack top), the skip guard
for empty labels / `map_key` / `end_map`, then after the label rewrite
and the hint lookup the chain `string`, `boolean`, `number`, `null`,
`start_array`, `end_array`, and finally the `raise ValueError` for
anything else. -/
def processEvent (conv : Converter) (stack : List Int) (row : List PyVal)
    (ev : RawEvent) : Except ProcError (Converter × List Int × List PyVal) :=
  if ev.kind = "start_map" then
    match stack with
    | [] => Except.ok (conv, stack, row)
    | i :: rest => Except.ok (conv, (i + 1) :: rest, row)
  else if ev.label.length = 0 ∨ ev.kind = "map_key" ∨ ev.kind = "end_map" then
    Except.ok (conv, stack, row)
  else
    let nestedLabel := resolvedName conv stack ev.label
    let colDataType := conv.schemaHints nestedLabel
    if ev.kind = "string" then
      let conv := conv.ensureColExistence nestedLabel (colDataType.getD ColDataType.TEXT)
      match setValInRow conv row nestedLabel ev.value with
      | some row => Except.ok (conv, stack, row)
      | Option.none => Except.error (ProcError.keyError nestedLabel)
    else if ev.kind = "boolean" then
      let conv := conv.ensureColExistence nestedLabel (colDataType.getD ColDataType.SMALLINT)
      let v : PyVal := if ev.value.truthy then PyVal.num 1 else PyVal.num 0
      match setValInRow conv row nestedLabel v with
      | some row => Except.ok (conv, stack, row)
      | Option.none => Except.error (ProcError.keyError nestedLabel)
    else if ev.kind = "number" then
      let conv := conv.ensureColExistence nestedLabel (colDataType.getD ColDataType.DOUBLE)
      match setValInRow conv row nestedLabel ev.value with
      | some row => Except.ok (conv, stack, row)
      | Option.none => Except.error (ProcError.keyError nestedLabel)
    else if ev.kind = "null" then
      let conv := conv.ensureColExistence nestedLabel (colDataType.getD ColDataType.TEXT)
      match setValInRow conv row nestedLabel (PyVal.str "") with
      | some row => Except.ok (conv, stack, row)
      | Option.none => Except.error (ProcError.keyError nestedLabel)
    else if ev.kind = "start_array" then
      Except.ok (conv, (-1 : Int) :: stack, row)
    else if ev.kind = "end_array" then
      match stack with
      | [] => Except.error ProcError.stackEmpty
      | _ :: rest => Except.ok (conv, rest, row)
    else
      Except.error (ProcError.unknownEvent nestedLabel ev.kind ev.value)

/-- The event loop: processes the events in order, threading the state;
a raised error aborts the loop and also reports the converter and row
state visible to the caller at the moment of the raise (the Python code
mutates `row` in place, so mutations from earlier iterations survive an
abort while no later mutation happens). -/
def processEventsAux (conv : Converter) (stack : List Int) (row : List PyVal) :
    List RawEvent → Except (ProcError × Converter × List PyVal) (Converter × List Int × List PyVal)
  | [] => Except.ok (conv, stack, row)
  | ev :: rest =>
    match processEvent conv stack row ev with
    | Except.error e => Except.error (e, conv, row)
    | Except.ok (conv', stack', row') => processEventsAux conv' stack' row' rest

/-- `GenericJSONParser.processOneJSONObject` (source lines 35-145): a
fresh array-index stack is created per document, the events are
processed in order, and the filled row (together with the converter,
whose schema the Python code mutates through `self`) is returned. -/
def processOneJSONObject (conv : Converter) (events : List RawEvent)
    (row : List PyVal) : Except (ProcError × Converter × List PyVal) (Converter × List PyVal) :=
  match processEventsAux conv [] row events with
  | Except.error e => Except.error e
  | Except.ok (conv', _, row') => Except.ok (conv', row')

/-- The event kinds the loop body recognizes (the nine kinds handled by
the branches of source lines 68-142); anything else reaches the
`raise ValueError` on line 144. -/
def recognizedKind (k : String) : Bool :=
  k == "start_map" || k == "map_key" || k == "end_map" || k == "string" ||
  k == "boolean" || k == "number" || k == "null" || k == "start_array" ||
  k == "end_array"

/-- The leaf scalar event kinds: the four kinds that make the loop store
a value into the row. -/
def isScalarKind (k : String) : Bool :=
  k == "string" || k == "boolean" || k == "number" || k == "null"

/-- A converter with the identity sanitizer, no schema hints and an
empty schema: the state of a fresh `JSONToRelation` at the start of
ingestion. -/
def conv0 : Converter := ⟨fun s => s, fun _ => Option.none, []⟩

/-- A converter whose schema already holds a single column `c` assigned
position 5 (as left behind by earlier documents). -/
def conv5 : Converter := ⟨fun s => s, fun _ => Option.none, [("c", ⟨5, ColDataType.DOUBLE⟩)]⟩

/-- The ijson event stream for the document
`{"items":[{"x":1},{"x":2}]}`. -/
def itemsEvents : List RawEvent :=
  [⟨"", "start_map", PyVal.none⟩,
   ⟨"", "map_key", PyVal.str "items"⟩,
   ⟨"items", "start_array", PyVal.none⟩,
   ⟨"items.item", "start_map", PyVal.none⟩,
   ⟨"items.item", "map_key", PyVal.str "x"⟩,
   ⟨"items.item.x", "number", PyVal.num 1⟩,
   ⟨"items.item", "end_map", PyVal.none⟩,
   ⟨"items.item", "start_map", PyVal.none⟩,
   ⟨"items.item", "map_key", PyVal.str "x"⟩,
   ⟨"items.item.x", "number", PyVal.num 2⟩,
   ⟨"items.item", "end_map", PyVal.none⟩,
   ⟨"items", "end_array", PyVal.none⟩,
   ⟨"", "end_map", PyVal.none⟩]

/-- C4: the path `myitem.name`, whose genuine field `myitem` merely
contains `item` as a substring, is mangled by the textual array-marker
strip: the regex matches the `item.` inside `myitem.name` and deletes
it, yielding `myname` instead of leaving the path alone. -/
theorem c4_item_substring_collision :
    removeItemPartOfString "myitem.name" = "myname" ∧ "myname" ≠ "myitem.name" := by
  constructor
  · decide
  · decide

/-- C1: evaluation of `setValInRow` at the failing input. With a schema
column at position 5 and an empty row, the `len(theRow) == 0` short
circuit appends the value, so it lands at index 0 in a row of length 1 —
not, as the claim states, at index 5 of a length-6 row whose indices 2-4
hold the gap placeholder. -/
theorem c1_empty_row_eval :
    setValInRow conv5 [] "c" (PyVal.num 7) = some [PyVal.num 7] ∧
    setValInRow conv5 [] "c" (PyVal.num 7) ≠
      some [gapFill, gapFill, gapFill, gapFill, gapFill, PyVal.num 7] := by
  constructor
  · rfl
  · decide

/-- C2: processing `{"items":[{"x":1},{"x":2}]}` from a fresh converter
produces exactly two columns, `items.x_0` at position 0 and `items.x_1`
at position 1 (the `.item.` marker stripped, the array index appended
after an underscore), and the row `[1, 2]`; the suffixes are `_0` and
`_1` because the counter is pushed at -1 on array open and incremented
by the StartMap of each element. -/
theorem c2_array_of_objects :
    processOneJSONObject conv0 itemsEvents [] =
      Except.ok ({ conv0 with cols := [("items.x_0", ⟨0, ColDataType.DOUBLE⟩),
                                       ("items.x_1", ⟨1, ColDataType.DOUBLE⟩)] },
                 [PyVal.num 1, PyVal.num 2]) ∧
    ['_', '0'].isSuffixOf "items.x_0".data = true ∧
    ['_', '1'].isSuffixOf "items.x_1".data = true ∧
    "items.x_0" ≠ "items.x_1" := by
  refine ⟨rfl, by decide, by decide, by decide⟩

/-- C5 counterexample: an `end_array` event whose path is empty — the
event every real top-level stream ends an unlabelled array with — is
discarded by the empty-label guard before the `end_array` branch is
reached, so processing it on an empty Array-Index Stack returns
normally instead of raising the stack-underflow error. -/
theorem c5_counterexample :
    processOneJSONObject conv0 [⟨"", "end_array", PyVal.none⟩] [] =
      Except.ok (conv0, []) := rfl

/-- C9 counterexample: the gap placeholder the source writes (the Python
literal `'null'`) is a four-character text token, not a three-character
one: filling positions 2-4 of a length-2 row stores `PyVal.str "null"`
there, and `"null"` has length 4. -/
theorem c9_counterexample :
    setValInRow conv5 [PyVal.num 0, PyVal.num 0] "c" (PyVal.num 7) =
      some [PyVal.num 0, PyVal.num 0, PyVal.str "null", PyVal.str "null",
            PyVal.str "null", PyVal.num 7] ∧
    ¬ ("null".length = 3) := by
  constructor
  · rfl
  · decide

/-- A pymongo collection handle as obtained by `self.db[collName]`: it
is bound both to the database it was taken from and to its name (two
handles with the same name but different databases are different
collections). -/
structure MongoColl where
  dbName : String
  collName : String
deriving DecidableEq, Repr

/-- The default-target state of a `MongoDB` instance (`mongodb.py`):
`self.dbName`, `self.db` (the database handle `self.client[dbName]`,
identified here by its name) and `self.coll` (the default collection
handle). The external server connection is out of scope. -/
structure MongoDB where
  dbName : String
  db : String
  coll : MongoColl
deriving DecidableEq, Repr

/-- `MongoDB.set_db` (source lines 36-44): stores the name and rebinds
`self.db`; note that it does not touch `self.coll`. -/
def MongoDB.set_db (m : MongoDB) (name : String) : MongoDB :=
  { m with dbName := name, db := name }

/-- `MongoDB.set_collection` (source lines 54-61):
`self.coll = self.db[collName]`, so the new default collection is taken
from whatever `self.db` currently is. -/
def MongoDB.set_collection (m : MongoDB) (collName : String) : MongoDB :=
  { m with coll := ⟨m.db, collName⟩ }

/-- `MongoDB.get_db_name` (source lines 46-52). -/
def MongoDB.get_db_name (m : MongoDB) : String := m.dbName

/-- `MongoDB.get_collection_name` (source lines 63-69): `self.coll.name`. -/
def MongoDB.get_collection_name (m : MongoDB) : String := m.coll.collName

/-- The default state established by `MongoDB.__init__` (source lines
32-34): `set_db("test")` followed by `set_collection('test_collection')`. -/
def MongoDB.init : MongoDB :=
  ((⟨"", "", ⟨"", ""⟩⟩ : MongoDB).set_db "test").set_collection "test_collection"

/-- The effect on the default-target state of the bracket
`with newMongoDB(self, db) as db, newMongoColl(self, collection) as coll:`
shared by `query`, `clear_collection` and `insert` (source lines 103,
152, 165 and the context-manager classes on lines 182-223). Entering
saves `get_db_name()` and switches the database if an override is given,
then saves `get_collection_name()` and switches the collection if an
override is given; the body does not modify the defaults; on exit — on
normal return and equally when the body raises, since both `__exit__`
methods run and return `False` — the collection is restored first via
`set_collection(savedCollName)` (against the still-switched `self.db`)
and then the database via `set_db(savedDBName)`. -/
def withDefaultOverrides (m : MongoDB) (dbOv collOv : Option String) : MongoDB :=
  let savedDBName := m.get_db_name
  let m1 := match dbOv with
            | Option.none => m
            | some d => m.set_db d
  let savedCollName := m1.get_collection_name
  let m2 := match collOv with
            | Option.none => m1
            | some c => m1.set_collection c
  let m3 := m2.set_collection savedCollName
  m3.set_db savedDBName

/-- The default-target effect of `MongoDB.query` (source lines 71-140):
its body only reads; the state change is the override bracket. -/
def MongoDB.query (m : MongoDB) (dbOv collOv : Option String) : MongoDB :=
  withDefaultOverrides m dbOv collOv

/-- The default-target effect of `MongoDB.clear_collection` (source
lines 142-153). -/
def MongoDB.clear_collection (m : MongoDB) (dbOv collOv : Option String) : MongoDB :=
  withDefaultOverrides m dbOv collOv

/-- The default-target effect of `MongoDB.insert` (source lines 155-166). -/
def MongoDB.insert (m : MongoDB) (dbOv collOv : Option String) : MongoDB :=
  withDefaultOverrides m dbOv collOv

/-- C7: evaluation at the failing input. Calling `query` with the
database override `"otherDb"` on the freshly initialized instance does
not restore the default collection: the collection-restoring `__exit__`
runs while `self.db` is still the override database, so afterwards
`self.coll` is `otherDb["test_collection"]` — the saved name, but bound
to the wrong database — and the post-call state differs from the
pre-call state (the database name and handle themselves are restored). -/
theorem c7_query_db_override_eval :
    MongoDB.init.query (some "otherDb") Option.none ≠ MongoDB.init ∧
    (MongoDB.init.query (some "otherDb") Option.none).coll =
      ⟨"otherDb", "test_collection"⟩ ∧
    MongoDB.init.coll = ⟨"test", "test_collection"⟩ ∧
    (MongoDB.init.query (some "otherDb") Option.none).get_collection_name =
      MongoDB.init.get_collection_name ∧
    (MongoDB.init.query (some "otherDb") Option.none).dbName = MongoDB.init.dbName ∧
    (MongoDB.init.query (some "otherDb") Option.none).db = MongoDB.init.db := by
  refine ⟨by decide, rfl, rfl, rfl, rfl, rfl⟩

/-! Helper lemmas about the schema registry and the row builder. -/

theorem lookupCol_append_of_none (l l' : List (String × ColumnSpec)) (k : String)
    (h : lookupCol l k = Option.none) : lookupCol (l ++ l') k = lookupCol l' k := by
  induction l with
  | nil => rfl
  | cons p t ih =>
    obtain ⟨a, sp⟩ := p
    by_cases hk : k = a
    · rw [lookupCol, if_pos hk] at h
      exact absurd h (by simp)
    · rw [List.cons_append, lookupCol, if_neg hk]
      rw [lookupCol, if_neg hk] at h
      exact ih h

theorem ensureColExistence_of_fresh (conv : Converter) (name : String) (t : ColDataType)
    (h : lookupCol conv.cols name = Option.none) :
    conv.ensureColExistence name t =
      { conv with cols := conv.cols ++ [(name, ⟨conv.cols.length, t⟩)] } := by
  unfold Converter.ensureColExistence
  rw [h]

theorem ensureColExistence_of_found (conv : Converter) (name : String) (t : ColDataType)
    (sp : ColumnSpec) (h : lookupCol conv.cols name = some sp) :
    conv.ensureColExistence name t = conv := by
  unfold Converter.ensureColExistence
  rw [h]

theorem lookupCol_ensureColExistence_self (conv : Converter) (name : String) (t : ColDataType)
    (h : lookupCol conv.cols name = Option.none) :
    lookupCol (conv.ensureColExistence name t).cols name =
      some ⟨conv.cols.length, t⟩ := by
  rw [ensureColExistence_of_fresh conv name t h]
  have : lookupCol (conv.cols ++ [(name, ⟨conv.cols.length, t⟩)]) name =
      lookupCol [(name, ⟨conv.cols.length, t⟩)] name :=
    lookupCol_append_of_none _ _ _ h
  rw [this, lookupCol, if_pos rfl]

theorem ensureColExistence_sanitizer (conv : Converter) (name : String) (t : ColDataType) :
    (conv.ensureColExistence name t).ensureLegalIdentifierChars =
      conv.ensureLegalIdentifierChars := by
  unfold Converter.ensureColExistence
  cases lookupCol conv.cols name <;> rfl

theorem ensureColExistence_hints (conv : Converter) (name : String) (t : ColDataType) :
    (conv.ensureColExistence name t).schemaHints = conv.schemaHints := by
  unfold Converter.ensureColExistence
  cases lookupCol conv.cols name <;> rfl

theorem setValInRow_eq_of_lookup (conv : Converter) (row : List PyVal) (name : String)
    (v : PyVal) (sp : ColumnSpec) (h : lookupCol conv.cols name = some sp) :
    setValInRow conv row name v =
      if row.length = 0 ∨ row.length = sp.colPos then some (row ++ [v])
      else if row.length > sp.colPos then some (row.set sp.colPos v)
      else some (row ++ List.replicate (sp.colPos - row.length) gapFill ++ [v]) := by
  unfold setValInRow
  rw [h]

theorem setValInRow_aligned (conv : Converter) (row : List PyVal) (name : String)
    (t : ColDataType) (v : PyVal)
    (h : lookupCol conv.cols name = some ⟨row.length, t⟩) :
    setValInRow conv row name v = some (row ++ [v]) := by
  rw [setValInRow_eq_of_lookup conv row name v _ h]
  exact if_pos (Or.inr rfl)

theorem set_append_singleton (l : List PyVal) (x v : PyVal) :
    (l ++ [x]).set l.length v = l ++ [v] := by
  induction l with
  | nil => rfl
  | cons a t ih => simp [List.set]

theorem setValInRow_overwrite_last (conv : Converter) (row : List PyVal) (name : String)
    (t : ColDataType) (v x : PyVal)
    (h : lookupCol conv.cols name = some ⟨row.length, t⟩) :
    setValInRow conv (row ++ [x]) name v = some (row ++ [v]) := by
  rw [setValInRow_eq_of_lookup conv (row ++ [x]) name v _ h]
  rw [if_neg (by simp), if_pos (by simp)]
  rw [set_append_singleton]

/-! Per-kind reduction lemmas for one loop iteration. -/

theorem processEvent_kind_start_map (conv : Converter) (stack : List Int) (row : List PyVal)
    (ev : RawEvent) (hkind : ev.kind = "start_map") :
    processEvent conv stack row ev =
      (match stack with
       | [] => Except.ok (conv, stack, row)
       | i :: rest => Except.ok (conv, (i + 1) :: rest, row)) := by
  unfold processEvent
  rw [hkind]
  rw [if_pos rfl]

theorem processEvent_skip (conv : Converter) (stack : List Int) (row : List PyVal)
    (ev : RawEvent) (hns : ev.kind ≠ "start_map")
    (hskip : ev.label.length = 0 ∨ ev.kind = "map_key" ∨ ev.kind = "end_map") :
    processEvent conv stack row ev = Except.ok (conv, stack, row) := by
  unfold processEvent
  rw [if_neg hns, if_pos hskip]

theorem processEvent_kind_string (conv : Converter) (stack : List Int) (row : List PyVal)
    (ev : RawEvent) (hkind : ev.kind = "string") (hlab : ev.label.length ≠ 0) :
    processEvent conv stack row ev =
      (match setValInRow
          (conv.ensureColExistence (resolvedName conv stack ev.label)
            ((conv.schemaHints (resolvedName conv stack ev.label)).getD ColDataType.TEXT))
          row (resolvedName conv stack ev.label) ev.value with
       | some row' => Except.ok
          (conv.ensureColExistence (resolvedName conv stack ev.label)
            ((conv.schemaHints (resolvedName conv stack ev.label)).getD ColDataType.TEXT),
           stack, row')
       | Option.none => Except.error (ProcError.keyError (resolvedName conv stack ev.label))) := by
  unfold processEvent
  rw [hkind]
  rw [if_neg (by decide), if_neg (by simp only [not_or]; exact ⟨hlab, by decide, by decide⟩),
    if_pos rfl]

theorem processEvent_kind_boolean (conv : Converter) (stack : List Int) (row : List PyVal)
    (ev : RawEvent) (hkind : ev.kind = "boolean") (hlab : ev.label.length ≠ 0) :
    processEvent conv stack row ev =
      (match setValInRow
          (conv.ensureColExistence (resolvedName conv stack ev.label)
            ((conv.schemaHints (resolvedName conv stack ev.label)).getD ColDataType.SMALLINT))
          row (resolvedName conv stack ev.label)
          (if ev.value.truthy then PyVal.num 1 else PyVal.num 0) with
       | some row' => Except.ok
          (conv.ensureColExistence (resolvedName conv stack ev.label)
            ((conv.schemaHints (resolvedName conv stack ev.label)).getD ColDataType.SMALLINT),
           stack, row')
       | Option.none => Except.error (ProcError.keyError (resolvedName conv stack ev.label))) := by
  unfold processEvent
  rw [hkind]
  rw [if_neg (by decide), if_neg (by simp only [not_or]; exact ⟨hlab, by decide, by decide⟩),
    if_neg (by decide), if_pos rfl]

theorem processEvent_kind_number (conv : Converter) (stack : List Int) (row : List PyVal)
    (ev : RawEvent) (hkind : ev.kind = "number") (hlab : ev.label.length ≠ 0) :
    processEvent conv stack row ev =
      (match setValInRow
          (conv.ensureColExistence (resolvedName conv stack ev.label)
            ((conv.schemaHints (resolvedName conv stack ev.label)).getD ColDataType.DOUBLE))
          row (resolvedName conv stack ev.label) ev.value with
       | some row' => Except.ok
          (conv.ensureColExistence (resolvedName conv stack ev.label)
            ((conv.schemaHints (resolvedName conv stack ev.label)).getD ColDataType.DOUBLE),
           stack, row')
       | Option.none => Except.error (ProcError.keyError (resolvedName conv stack ev.label))) := by
  unfold processEvent
  rw [hkind]
  rw [if_neg (by decide), if_neg (by simp only [not_or]; exact ⟨hlab, by decide, by decide⟩),
    if_neg (by decide), if_neg (by decide), if_pos rfl]

theorem processEvent_kind_null (conv : Converter) (stack : List Int) (row : List PyVal)
    (ev : RawEvent) (hkind : ev.kind = "null") (hlab : ev.label.length ≠ 0) :
    processEvent conv stack row ev =
      (match setValInRow
          (conv.ensureColExistence (resolvedName conv stack ev.label)
            ((conv.schemaHints (resolvedName conv stack ev.label)).getD ColDataType.TEXT))
          row (resolvedName conv stack ev.label) (PyVal.str "") with
       | some row' => Except.ok
          (conv.ensureColExistence (resolvedName conv stack ev.label)
            ((conv.schemaHints (resolvedName conv stack ev.label)).getD ColDataType.TEXT),
           stack, row')
       | Option.none => Except.error (ProcError.keyError (resolvedName conv stack ev.label))) := by
  unfold processEvent
  rw [hkind]
  rw [if_neg (by decide), if_neg (by simp only [not_or]; exact ⟨hlab, by decide, by decide⟩),
    if_neg (by decide), if_neg (by decide), if_neg (by decide), if_pos rfl]

theorem processEvent_kind_start_array (conv : Converter) (stack : List Int) (row : List PyVal)
    (ev : RawEvent) (hkind : ev.kind = "start_array") (hlab : ev.label.length ≠ 0) :
    processEvent conv stack row ev = Except.ok (conv, (-1 : Int) :: stack, row) := by
  unfold processEvent
  rw [hkind]
  rw [if_neg (by decide), if_neg (by simp only [not_or]; exact ⟨hlab, by decide, by decide⟩),
    if_neg (by decide), if_neg (by decide), if_neg (by decide), if_neg (by decide),
    if_pos rfl]

theorem processEvent_kind_end_array (conv : Converter) (stack : List Int) (row : List PyVal)
    (ev : RawEvent) (hkind : ev.kind = "end_array") (hlab : ev.label.length ≠ 0) :
    processEvent conv stack row ev =
      (match stack with
       | [] => Except.error ProcError.stackEmpty
       | _ :: rest => Except.ok (conv, rest, row)) := by
  unfold processEvent
  rw [hkind]
  rw [if_neg (by decide), if_neg (by simp only [not_or]; exact ⟨hlab, by decide, by decide⟩),
    if_neg (by decide), if_neg (by decide), if_neg (by decide), if_neg (by decide),
    if_neg (by decide), if_pos rfl]

theorem processEvent_kind_unknown (conv : Converter) (stack : List Int) (row : List PyVal)
    (ev : RawEvent) (hk : recognizedKind ev.kind = false) (hlab : ev.label.length ≠ 0) :
    processEvent conv stack row ev =
      Except.error (ProcError.unknownEvent (resolvedName conv stack ev.label) ev.kind ev.value) := by
  simp only [recognizedKind, Bool.or_eq_false_iff, beq_eq_false_iff_ne, ne_eq] at hk
  obtain ⟨⟨⟨⟨⟨⟨⟨⟨h1, h2⟩, h3⟩, h4⟩, h5⟩, h6⟩, h7⟩, h8⟩, h9⟩ := hk
  unfold processEvent
  rw [if_neg h1, if_neg (by simp only [not_or]; exact ⟨hlab, h2, h3⟩),
    if_neg h4, if_neg h5, if_neg h6, if_neg h7, if_neg h8, if_neg h9]

/-- C3: for a scalar event with a non-empty path whose resolved column
name has no caller-supplied type hint (and is new to the schema, the row
being aligned with the schema length), the loop resolves type and stored
value by event kind: Text with the value unchanged for a string event,
SmallInt with the value materialized as 1 or 0 for a boolean event,
Double with the value unchanged for a number event, and Text with the
value materialized as the empty text value — not a structural null — for
a null event. In each case the column is recorded with that type and the
value lands at the column's position at the end of the row. -/
theorem c3_default_types (conv : Converter) (stack : List Int) (row : List PyVal)
    (label : String) (hlab : label.length ≠ 0)
    (hhint : conv.schemaHints (resolvedName conv stack label) = Option.none)
    (hfresh : lookupCol conv.cols (resolvedName conv stack label) = Option.none)
    (hrow : row.length = conv.cols.length) :
    (∀ s : String,
      processEvent conv stack row ⟨label, "string", PyVal.str s⟩ =
        Except.ok (conv.ensureColExistence (resolvedName conv stack label) ColDataType.TEXT,
          stack, row ++ [PyVal.str s]) ∧
      lookupCol (conv.ensureColExistence (resolvedName conv stack label) ColDataType.TEXT).cols
          (resolvedName conv stack label) = some ⟨conv.cols.length, ColDataType.TEXT⟩) ∧
    (∀ b : Bool,
      processEvent conv stack row ⟨label, "boolean", PyVal.bool b⟩ =
        Except.ok (conv.ensureColExistence (resolvedName conv stack label) ColDataType.SMALLINT,
          stack, row ++ [if b then PyVal.num 1 else PyVal.num 0]) ∧
      lookupCol (conv.ensureColExistence (resolvedName conv stack label) ColDataType.SMALLINT).cols
          (resolvedName conv stack label) = some ⟨conv.cols.length, ColDataType.SMALLINT⟩) ∧
    (∀ q : Rat,
      processEvent conv stack row ⟨label, "number", PyVal.num q⟩ =
        Except.ok (conv.ensureColExistence (resolvedName conv stack label) ColDataType.DOUBLE,
          stack, row ++ [PyVal.num q]) ∧
      lookupCol (conv.ensureColExistence (resolvedName conv stack label) ColDataType.DOUBLE).cols
          (resolvedName conv stack label) = some ⟨conv.cols.length, ColDataType.DOUBLE⟩) ∧
    (processEvent conv stack row ⟨label, "null", PyVal.none⟩ =
        Except.ok (conv.ensureColExistence (resolvedName conv stack label) ColDataType.TEXT,
          stack, row ++ [PyVal.str ""]) ∧
      lookupCol (conv.ensureColExistence (resolvedName conv stack label) ColDataType.TEXT).cols
          (resolvedName conv stack label) = some ⟨conv.cols.length, ColDataType.TEXT⟩ ∧
      PyVal.str "" ≠ PyVal.none) := by
  refine ⟨fun s => ⟨?_, ?_⟩, fun b => ⟨?_, ?_⟩, fun q => ⟨?_, ?_⟩, ?_, ?_, by decide⟩
  · rw [processEvent_kind_string conv stack row ⟨label, "string", PyVal.str s⟩ rfl hlab]
    rw [show (⟨label, "string", PyVal.str s⟩ : RawEvent).label = label from rfl]
    rw [hhint]
    rw [show (Option.none : Option ColDataType).getD ColDataType.TEXT = ColDataType.TEXT from rfl]
    rw [setValInRow_aligned _ row _ ColDataType.TEXT _
      (by rw [hrow]; exact lookupCol_ensureColExistence_self conv _ ColDataType.TEXT hfresh)]
  · exact lookupCol_ensureColExistence_self conv _ ColDataType.TEXT hfresh
  · rw [processEvent_kind_boolean conv stack row ⟨label, "boolean", PyVal.bool b⟩ rfl hlab]
    rw [show (⟨label, "boolean", PyVal.bool b⟩ : RawEvent).label = label from rfl]
    rw [hhint]
    rw [show (Option.none : Option ColDataType).getD ColDataType.SMALLINT =
      ColDataType.SMALLINT from rfl]
    rw [show (⟨label, "boolean", PyVal.bool b⟩ : RawEvent).value.truthy = b from rfl]
    rw [setValInRow_aligned _ row _ ColDataType.SMALLINT _
      (by rw [hrow]; exact lookupCol_ensureColExistence_self conv _ ColDataType.SMALLINT hfresh)]
  · exact lookupCol_ensureColExistence_self conv _ ColDataType.SMALLINT hfresh
  · rw [processEvent_kind_number conv stack row ⟨label, "number", PyVal.num q⟩ rfl hlab]
    rw [show (⟨label, "number", PyVal.num q⟩ : RawEvent).label = label from rfl]
    rw [hhint]
    rw [show (Option.none : Option ColDataType).getD ColDataType.DOUBLE =
      ColDataType.DOUBLE from rfl]
    rw [setValInRow_aligned _ row _ ColDataType.DOUBLE _
      (by rw [hrow]; exact lookupCol_ensureColExistence_self conv _ ColDataType.DOUBLE hfresh)]
  · exact lookupCol_ensureColExistence_self conv _ ColDataType.DOUBLE hfresh
  · rw [processEvent_kind_null conv stack row ⟨label, "null", PyVal.none⟩ rfl hlab]
    rw [show (⟨label, "null", PyVal.none⟩ : RawEvent).label = label from rfl]
    rw [hhint]
    rw [show (Option.none : Option ColDataType).getD ColDataType.TEXT = ColDataType.TEXT from rfl]
    rw [setValInRow_aligned _ row _ ColDataType.TEXT _
      (by rw [hrow]; exact lookupCol_ensureColExistence_self conv _ ColDataType.TEXT hfresh)]
  · exact lookupCol_ensureColExistence_self conv _ ColDataType.TEXT hfresh

/-- C3 witness: the four default typings evaluated on a fresh converter
at path `a` for a concrete string, boolean, number and null event. -/
theorem c3_default_types_witness :
    (processEvent conv0 [] [] ⟨"a", "string", PyVal.str "hi"⟩ =
      Except.ok (conv0.ensureColExistence "a" ColDataType.TEXT, [], [PyVal.str "hi"])) ∧
    (processEvent conv0 [] [] ⟨"a", "boolean", PyVal.bool true⟩ =
      Except.ok (conv0.ensureColExistence "a" ColDataType.SMALLINT, [], [PyVal.num 1])) ∧
    (processEvent conv0 [] [] ⟨"a", "number", PyVal.num 5⟩ =
      Except.ok (conv0.ensureColExistence "a" ColDataType.DOUBLE, [], [PyVal.num 5])) ∧
    (processEvent conv0 [] [] ⟨"a", "null", PyVal.none⟩ =
      Except.ok (conv0.ensureColExistence "a" ColDataType.TEXT, [], [PyVal.str ""])) := by
  have h := c3_default_types conv0 [] [] "a" (by decide) rfl rfl rfl
  exact ⟨(h.1 "hi").1, (h.2.1 true).1, (h.2.2.1 5).1, h.2.2.2.1⟩

/-- C5 (amended): an `end_array` event carrying a non-empty path raises
the fatal `Stack empty.` underflow error when the Array-Index Stack is
empty — aborting the document no matter what events follow — and pops
exactly the top counter when the stack is non-empty; an `end_array`
whose path is empty never reaches the pop (see the counterexample). -/
theorem c5_end_array_underflow (conv : Converter) (row : List PyVal)
    (label : String) (val : PyVal) (hlab : label.length ≠ 0) :
    processEvent conv [] row ⟨label, "end_array", val⟩ =
      Except.error ProcError.stackEmpty ∧
    (∀ (i : Int) (rest : List Int),
      processEvent conv (i :: rest) row ⟨label, "end_array", val⟩ =
        Except.ok (conv, rest, row)) ∧
    (∀ post : List RawEvent,
      processEventsAux conv [] row (⟨label, "end_array", val⟩ :: post) =
        Except.error (ProcError.stackEmpty, conv, row)) := by
  have hempty : processEvent conv [] row ⟨label, "end_array", val⟩ =
      Except.error ProcError.stackEmpty :=
    processEvent_kind_end_array conv [] row ⟨label, "end_array", val⟩ rfl hlab
  refine ⟨hempty, fun i rest =>
    processEvent_kind_end_array conv (i :: rest) row ⟨label, "end_array", val⟩ rfl hlab,
    fun post => ?_⟩
  show (match processEvent conv [] row ⟨label, "end_array", val⟩ with
    | Except.error e => Except.error (e, conv, row)
    | Except.ok (conv', stack', row') => processEventsAux conv' stack' row' post) = _
  rw [hempty]

/-- C5 witness: the underflow error, the pop, and the whole-document
abort evaluated at the path `a`, an empty row, the fresh converter and
the one-element stack `[0]`. -/
theorem c5_end_array_underflow_witness :
    processEvent conv0 [] [] ⟨"a", "end_array", PyVal.none⟩ =
      Except.error ProcError.stackEmpty ∧
    processEvent conv0 [(0 : Int)] [] ⟨"a", "end_array", PyVal.none⟩ =
      Except.ok (conv0, [], []) ∧
    processEventsAux conv0 [] [] [⟨"a", "end_array", PyVal.none⟩] =
      Except.error (ProcError.stackEmpty, conv0, []) := by
  have h := c5_end_array_underflow conv0 [] "a" PyVal.none (by decide)
  exact ⟨h.1, h.2.1 0 [], h.2.2 []⟩

/-- The event loop splits over list append: processing `pre ++ rest`
runs `pre` first and, if it did not abort, continues with `rest` from
the reached state. -/
theorem processEventsAux_append (conv : Converter) (stack : List Int) (row : List PyVal)
    (pre rest : List RawEvent) :
    processEventsAux conv stack row (pre ++ rest) =
      (match processEventsAux conv stack row pre with
       | Except.error e => Except.error e
       | Except.ok (conv', stack', row') => processEventsAux conv' stack' row' rest) := by
  induction pre generalizing conv stack row with
  | nil => rfl
  | cons ev tail ih =>
    show processEventsAux conv stack row (ev :: (tail ++ rest)) = _
    rw [processEventsAux]
    rw [processEventsAux]
    cases processEvent conv stack row ev with
    | error e => rfl
    | ok st =>
      obtain ⟨conv', stack', row'⟩ := st
      exact ih conv' stack' row'

/-- C6: if a prefix of the stream processes without aborting and the
next event has a kind outside the recognized set and a non-empty path,
the whole document aborts with the fatal unknown-kind error raised at
that event — the reported state is exactly the state reached after the
prefix, independent of the events that follow, so no further row
mutation happens for the document. -/
theorem c6_unrecognized_kind_aborts (conv : Converter) (row : List PyVal)
    (pre : List RawEvent) (ev : RawEvent) (post : List RawEvent)
    (c' : Converter) (s' : List Int) (r' : List PyVal)
    (hpre : processEventsAux conv [] row pre = Except.ok (c', s', r'))
    (hk : recognizedKind ev.kind = false) (hlab : ev.label.length ≠ 0) :
    processOneJSONObject conv (pre ++ ev :: post) row =
      Except.error
        (ProcError.unknownEvent (resolvedName c' s' ev.label) ev.kind ev.value, c', r') := by
  unfold processOneJSONObject
  rw [processEventsAux_append, hpre]
  show (match (match processEvent c' s' r' ev with
        | Except.error e => Except.error (e, c', r')
        | Except.ok (a, b, c) => processEventsAux a b c post) with
      | Except.error e => Except.error e
      | Except.ok (conv', _, row') => Except.ok (conv', row')) = _
  rw [processEvent_kind_unknown c' s' r' ev hk hlab]

/-- C6 witness: a document that opens a map and then feeds the
unrecognized kind `bogus` at path `a` aborts with the unknown-kind
error, the state showing the untouched empty row. -/
theorem c6_unrecognized_kind_aborts_witness :
    processOneJSONObject conv0
      [⟨"", "start_map", PyVal.none⟩, ⟨"a", "bogus", PyVal.none⟩,
       ⟨"b", "number", PyVal.num 3⟩] [] =
      Except.error (ProcError.unknownEvent "a" "bogus" PyVal.none, conv0, []) :=
  c6_unrecognized_kind_aborts conv0 [] [⟨"", "start_map", PyVal.none⟩]
    ⟨"a", "bogus", PyVal.none⟩ [⟨"b", "number", PyVal.num 3⟩] conv0 [] [] rfl
    (by decide) (by decide)

/-- A non-scalar event (or one with an empty path) never touches the
converter or the row: it either returns them unchanged (possibly moving
the array-index stack) or raises. -/
theorem processEvent_structural (conv : Converter) (stack : List Int) (row : List PyVal)
    (ev : RawEvent) (hns : isScalarKind ev.kind = false ∨ ev.label.length = 0) :
    (∃ s, processEvent conv stack row ev = Except.ok (conv, s, row)) ∨
    (∃ e, processEvent conv stack row ev = Except.error e) := by
  by_cases h1 : ev.kind = "start_map"
  · rw [processEvent_kind_start_map conv stack row ev h1]
    cases stack with
    | nil => exact Or.inl ⟨[], rfl⟩
    | cons i rest => exact Or.inl ⟨(i + 1) :: rest, rfl⟩
  by_cases hsk : ev.label.length = 0 ∨ ev.kind = "map_key" ∨ ev.kind = "end_map"
  · rw [processEvent_skip conv stack row ev h1 hsk]
    exact Or.inl ⟨stack, rfl⟩
  have hlab : ev.label.length ≠ 0 := fun h => hsk (Or.inl h)
  rcases hns with hns | hl
  swap
  · exact absurd hl hlab
  by_cases ha : ev.kind = "start_array"
  · rw [processEvent_kind_start_array conv stack row ev ha hlab]
    exact Or.inl ⟨(-1 : Int) :: stack, rfl⟩
  by_cases he : ev.kind = "end_array"
  · rw [processEvent_kind_end_array conv stack row ev he hlab]
    cases stack with
    | nil => exact Or.inr ⟨ProcError.stackEmpty, rfl⟩
    | cons i rest => exact Or.inl ⟨rest, rfl⟩
  have hk : recognizedKind ev.kind = false := by
    push_neg at hsk
    simp only [isScalarKind, Bool.or_eq_false_iff, beq_eq_false_iff_ne, ne_eq] at hns
    simp only [recognizedKind, Bool.or_eq_false_iff, beq_eq_false_iff_ne, ne_eq]
    exact ⟨⟨⟨⟨⟨⟨⟨⟨h1, hsk.2.1⟩, hsk.2.2⟩, hns.1.1.1⟩, hns.1.1.2⟩, hns.1.2⟩, hns.2⟩, ha⟩, he⟩
  rw [processEvent_kind_unknown conv stack row ev hk hlab]
  exact Or.inr ⟨_, rfl⟩

/-- Running the loop over events none of which is a leaf scalar leaves
the converter and the row exactly as they started whenever it returns
normally. -/
theorem processEventsAux_structural_state (events : List RawEvent) :
    ∀ (conv : Converter) (stack : List Int) (row : List PyVal)
      (c' : Converter) (s' : List Int) (r' : List PyVal),
    (∀ ev ∈ events, isScalarKind ev.kind = false ∨ ev.label.length = 0) →
    processEventsAux conv stack row events = Except.ok (c', s', r') →
    c' = conv ∧ r' = row := by
  induction events with
  | nil =>
    intro conv stack row c' s' r' _ hok
    simp only [processEventsAux, Except.ok.injEq, Prod.mk.injEq] at hok
    exact ⟨hok.1.symm, hok.2.2.symm⟩
  | cons ev tail ih =>
    intro conv stack row c' s' r' hall hok
    have hev := hall ev (List.mem_cons_self ev tail)
    rw [show processEventsAux conv stack row (ev :: tail) =
        (match processEvent conv stack row ev with
         | Except.error e => Except.error (e, conv, row)
         | Except.ok (a, b, c) => processEventsAux a b c tail) from rfl] at hok
    rcases processEvent_structural conv stack row ev hev with ⟨s2, hs⟩ | ⟨e, he⟩
    · rw [hs] at hok
      exact ih conv s2 row c' s' r'
        (fun e' he' => hall e' (List.mem_cons_of_mem ev he')) hok
    · rw [he] at hok
      exact absurd hok (by simp)

/-- C8: a document whose event stream contains no leaf scalar event
(every event is structural, or carries an empty path) that processes to
completion returns the initially empty row unchanged — zero length —
and leaves the Schema Registry exactly as it was, i.e.
`ensureColExistence` was never reached. -/
theorem c8_no_scalar_no_mutation (conv : Converter) (events : List RawEvent)
    (hns : ∀ ev ∈ events, isScalarKind ev.kind = false ∨ ev.label.length = 0)
    (c' : Converter) (r' : List PyVal)
    (hok : processOneJSONObject conv events [] = Except.ok (c', r')) :
    c' = conv ∧ r' = [] := by
  unfold processOneJSONObject at hok
  cases haux : processEventsAux conv [] [] events with
  | error e => rw [haux] at hok; exact absurd hok (by simp)
  | ok st =>
    obtain ⟨a, b, c⟩ := st
    rw [haux] at hok
    simp only [Except.ok.injEq, Prod.mk.injEq] at hok
    obtain ⟨rfl, rfl⟩ := hok
    exact processEventsAux_structural_state events conv [] [] a b c hns haux

/-- C8 witness: the purely structural stream of `{"a":[]}` processes
to completion with the empty row and the untouched fresh converter. -/
theorem c8_no_scalar_no_mutation_witness : conv0 = conv0 ∧ ([] : List PyVal) = [] :=
  c8_no_scalar_no_mutation conv0
    [⟨"", "start_map", PyVal.none⟩, ⟨"", "map_key", PyVal.str "a"⟩,
     ⟨"a", "start_array", PyVal.none⟩, ⟨"a", "end_array", PyVal.none⟩,
     ⟨"", "end_map", PyVal.none⟩] (by decide) conv0 [] rfl

/-- C9 (amended): when a non-empty row is extended past its end, every
intervening index receives the gap placeholder, which is the literal
four-character text token `null` — a text sentinel, not a structural
null. -/
theorem c9_gap_token (conv : Converter) (row : List PyVal) (name : String)
    (sp : ColumnSpec) (v : PyVal)
    (hlook : lookupCol conv.cols name = some sp)
    (hne : row.length ≠ 0) (hlt : row.length < sp.colPos) :
    setValInRow conv row name v =
      some (row ++ List.replicate (sp.colPos - row.length) gapFill ++ [v]) ∧
    gapFill = PyVal.str "null" ∧ "null".length = 4 ∧ gapFill ≠ PyVal.none := by
  refine ⟨?_, rfl, by decide, by decide⟩
  rw [setValInRow_eq_of_lookup conv row name v sp hlook]
  rw [if_neg (by push_neg; exact ⟨hne, by omega⟩), if_neg (by omega)]

/-- C9 witness: gap-filling a length-2 row up to position 5 writes the
`null` text token into indices 2-4. -/
theorem c9_gap_token_witness :
    setValInRow conv5 [PyVal.num 1, PyVal.num 2] "c" (PyVal.num 7) =
      some ([PyVal.num 1, PyVal.num 2] ++ List.replicate 3 gapFill ++ [PyVal.num 7]) ∧
    gapFill = PyVal.str "null" ∧ "null".length = 4 ∧ gapFill ≠ PyVal.none :=
  c9_gap_token conv5 [PyVal.num 1, PyVal.num 2] "c" ⟨5, ColDataType.DOUBLE⟩
    (PyVal.num 7) rfl (by decide) (by decide)

/-- One unfolding step of the event loop. -/
theorem processEventsAux_cons (conv : Converter) (stack : List Int) (row : List PyVal)
    (ev : RawEvent) (rest : List RawEvent) :
    processEventsAux conv stack row (ev :: rest) =
      (match processEvent conv stack row ev with
       | Except.error e => Except.error (e, conv, row)
       | Except.ok (a, b, c) => processEventsAux a b c rest) := rfl

/-- Growing the schema does not change the sanitizer, so resolved
column names are stable across `ensureColExistence`. -/
theorem resolvedName_ensure (conv : Converter) (n : String) (t : ColDataType)
    (stack : List Int) (label : String) :
    resolvedName (conv.ensureColExistence n t) stack label =
      resolvedName conv stack label := by
  unfold resolvedName
  rw [ensureColExistence_sanitizer]

/-- Inside an array of bare scalars the stack top never moves, so every
further `number` element resolves to the same column and overwrites the
cell at the end of the row; the closing `end_array` pops the counter.
The surviving cell holds the last element (`getLastD` of the remaining
elements with the already-stored one as default). -/
theorem processEventsAux_number_overwrite (cE : Converter) (row : List PyVal)
    (lab labItem : String) (t : ColDataType)
    (hlab : lab.length ≠ 0) (hitem : labItem.length ≠ 0)
    (hlook : lookupCol cE.cols (resolvedName cE [(-1 : Int)] labItem) =
      some ⟨row.length, t⟩) :
    ∀ (vs : List PyVal) (x : PyVal),
      processEventsAux cE [(-1 : Int)] (row ++ [x])
        ((vs.map fun v => (⟨labItem, "number", v⟩ : RawEvent)) ++
          [⟨lab, "end_array", PyVal.none⟩]) =
      Except.ok (cE, [], row ++ [vs.getLastD x]) := by
  intro vs
  induction vs with
  | nil =>
    intro x
    rw [List.map_nil, List.nil_append, processEventsAux_cons]
    rw [processEvent_kind_end_array cE [(-1 : Int)] (row ++ [x])
      ⟨lab, "end_array", PyVal.none⟩ rfl hlab]
    rfl
  | cons v vs' ih =>
    intro x
    rw [List.map_cons, List.cons_append, processEventsAux_cons]
    rw [processEvent_kind_number cE [(-1 : Int)] (row ++ [x]) ⟨labItem, "number", v⟩ rfl hitem]
    rw [show (⟨labItem, "number", v⟩ : RawEvent).label = labItem from rfl]
    rw [show (⟨labItem, "number", v⟩ : RawEvent).value = v from rfl]
    rw [ensureColExistence_of_found cE (resolvedName cE [(-1 : Int)] labItem)
      ((cE.schemaHints (resolvedName cE [(-1 : Int)] labItem)).getD ColDataType.DOUBLE)
      (⟨row.length, t⟩ : ColumnSpec) hlook]
    rw [setValInRow_overwrite_last cE row (resolvedName cE [(-1 : Int)] labItem) t v x hlook]
    rw [show (v :: vs').getLastD x = vs'.getLastD v from List.getLastD_cons x v vs']
    exact ih v

/-- C10: an array whose elements are bare scalars (no StartMap between
the StartArray and the scalars) keeps the top-of-stack index at -1 for
every element, so all elements resolve to one column — the stripped path
suffixed by `_` and the printed index -1, i.e. `_-1` — at one position;
each later element overwrites the earlier and the completed row keeps
only the last element's value, the schema having grown by exactly that
single column. -/
theorem c10_scalar_array_last_value (conv : Converter) (row : List PyVal)
    (lab labItem : String) (vs : List PyVal)
    (hlab : lab.length ≠ 0) (hitem : labItem.length ≠ 0) (hvs : vs ≠ [])
    (hfresh : lookupCol conv.cols (resolvedName conv [(-1 : Int)] labItem) = Option.none)
    (hrow : row.length = conv.cols.length) :
    processOneJSONObject conv
      ((⟨lab, "start_array", PyVal.none⟩ : RawEvent) ::
        ((vs.map fun v => (⟨labItem, "number", v⟩ : RawEvent)) ++
          [(⟨lab, "end_array", PyVal.none⟩ : RawEvent)])) row =
      Except.ok
        (conv.ensureColExistence (resolvedName conv [(-1 : Int)] labItem)
          ((conv.schemaHints (resolvedName conv [(-1 : Int)] labItem)).getD ColDataType.DOUBLE),
         row ++ [vs.getLastD PyVal.none]) ∧
    resolvedName conv [(-1 : Int)] labItem =
      conv.ensureLegalIdentifierChars
        (removeItemPartOfString labItem ++ "_" ++ toString (-1 : Int)) ∧
    toString (-1 : Int) = "-1" ∧
    (conv.ensureColExistence (resolvedName conv [(-1 : Int)] labItem)
        ((conv.schemaHints (resolvedName conv [(-1 : Int)] labItem)).getD
          ColDataType.DOUBLE)).cols =
      conv.cols ++ [(resolvedName conv [(-1 : Int)] labItem,
        ⟨conv.cols.length,
         (conv.schemaHints (resolvedName conv [(-1 : Int)] labItem)).getD
           ColDataType.DOUBLE⟩)] := by
  refine ⟨?_, rfl, rfl, ?_⟩
  · cases vs with
    | nil => exact absurd rfl hvs
    | cons v vs' =>
      rw [show ((v :: vs').getLastD PyVal.none) = vs'.getLastD v from
        List.getLastD_cons PyVal.none v vs']
      have hlookE : lookupCol
          ((conv.ensureColExistence (resolvedName conv [(-1 : Int)] labItem)
            ((conv.schemaHints (resolvedName conv [(-1 : Int)] labItem)).getD
              ColDataType.DOUBLE)).cols)
          (resolvedName (conv.ensureColExistence (resolvedName conv [(-1 : Int)] labItem)
            ((conv.schemaHints (resolvedName conv [(-1 : Int)] labItem)).getD
              ColDataType.DOUBLE)) [(-1 : Int)] labItem) =
          some ⟨row.length, (conv.schemaHints (resolvedName conv [(-1 : Int)] labItem)).getD
            ColDataType.DOUBLE⟩ := by
        rw [resolvedName_ensure, hrow]
        exact lookupCol_ensureColExistence_self conv _ _ hfresh
      unfold processOneJSONObject
      rw [processEventsAux_cons]
      rw [processEvent_kind_start_array conv [] row ⟨lab, "start_array", PyVal.none⟩ rfl hlab]
      show (match processEventsAux conv [(-1 : Int)] row
          (((v :: vs').map fun w => (⟨labItem, "number", w⟩ : RawEvent)) ++
            [(⟨lab, "end_array", PyVal.none⟩ : RawEvent)]) with
        | Except.error e => Except.error e
        | Except.ok (c', _, r') => Except.ok (c', r')) = _
      rw [List.map_cons, List.cons_append]
      rw [processEventsAux_cons]
      rw [processEvent_kind_number conv [(-1 : Int)] row ⟨labItem, "number", v⟩ rfl hitem]
      rw [show (⟨labItem, "number", v⟩ : RawEvent).label = labItem from rfl]
      rw [show (⟨labItem, "number", v⟩ : RawEvent).value = v from rfl]
      rw [setValInRow_aligned
        (conv.ensureColExistence (resolvedName conv [(-1 : Int)] labItem)
          ((conv.schemaHints (resolvedName conv [(-1 : Int)] labItem)).getD ColDataType.DOUBLE))
        row (resolvedName conv [(-1 : Int)] labItem)
        ((conv.schemaHints (resolvedName conv [(-1 : Int)] labItem)).getD ColDataType.DOUBLE) v
        (by rw [hrow]; exact lookupCol_ensureColExistence_self conv _ _ hfresh)]
      show (match processEventsAux
          (conv.ensureColExistence (resolvedName conv [(-1 : Int)] labItem)
            ((conv.schemaHints (resolvedName conv [(-1 : Int)] labItem)).getD
              ColDataType.DOUBLE))
          [(-1 : Int)] (row ++ [v])
          ((vs'.map fun w => (⟨labItem, "number", w⟩ : RawEvent)) ++
            [(⟨lab, "end_array", PyVal.none⟩ : RawEvent)]) with
        | Except.error e => Except.error e
        | Except.ok (c', _, r') => Except.ok (c', r')) = _
      rw [processEventsAux_number_overwrite _ row lab labItem _ hlab hitem hlookE vs' v]
  · rw [ensureColExistence_of_fresh conv _ _ hfresh]

/-- C10 witness: `{"a":[1,2]}`-style scalar array events — the two
elements share the column `a.item_-1` and only the last value 2 survives
in the completed one-cell row. -/
theorem c10_scalar_array_last_value_witness :
    processOneJSONObject conv0
      [⟨"a", "start_array", PyVal.none⟩, ⟨"a.item", "number", PyVal.num 1⟩,
       ⟨"a.item", "number", PyVal.num 2⟩, ⟨"a", "end_array", PyVal.none⟩] [] =
      Except.ok (conv0.ensureColExistence "a.item_-1" ColDataType.DOUBLE, [PyVal.num 2]) :=
  (c10_scalar_array_last_value conv0 [] "a" "a.item" [PyVal.num 1, PyVal.num 2]
    (by decide) (by decide) (by decide) rfl rfl).1
